import Mathlib

/-!
Verification of `src/async_web_scrapper.py` (Aswithcheella/Web-Scrapper).

Shallow embedding: the network is a map from URL to outcome, BeautifulSoup
parsing is a map from a body to a parsed-document structure, and the
`asyncio.gather` assembly is modelled by slot writes in an arbitrary
completion order.
-/

namespace AsyncWebScrapper

/-- Python whitespace characters recognised by `str.strip()` (ASCII part). -/
def pyIsSpace (c : Char) : Bool :=
  c = ' ' || c = '\t' || c = '\n' || c = '\r' || c = '\x0b' || c = '\x0c'

/-- Model of Python `str.strip()`: drop whitespace from both ends. -/
def pyStrip (s : String) : String :=
  String.mk (((s.toList.dropWhile pyIsSpace).reverse.dropWhile pyIsSpace).reverse)

/-- Boolean list-prefix test, used to model Python `str.startswith`. -/
def listStartsWith : List Char → List Char → Bool
  | _, [] => true
  | [], _ :: _ => false
  | c :: cs, p :: ps => c = p && listStartsWith cs ps

/-- Model of Python `str.startswith(pre)`. -/
def pyStartsWith (s pre : String) : Bool :=
  listStartsWith s.toList pre.toList

/-- Characters allowed in a URL scheme by `urllib.parse` (letters, digits, `+`, `-`, `.`). -/
def schemeChar (c : Char) : Bool :=
  c.isAlphanum || c = '+' || c = '-' || c = '.'

/-- Model of the scheme-splitting step of `urllib.parse.urlparse`: when the text up to
the first colon is a valid scheme (nonempty, starts with a letter, scheme characters
only), return it lowercased together with the remainder after the colon; otherwise the
scheme is empty and the input is unchanged. -/
def splitScheme (cs : List Char) : List Char × List Char :=
  match cs.findIdx? (fun c => c = ':') with
  | some i =>
    if 0 < i && (cs.headD ' ').isAlpha && (cs.take i).all schemeChar then
      ((cs.take i).map Char.toLower, cs.drop (i + 1))
    else ([], cs)
  | none => ([], cs)

/-- Model of the netloc-splitting step of `urllib.parse.urlparse`: after the scheme,
a netloc is present only behind `//` and extends to the next `/`, `?` or `#`. -/
def splitNetloc (cs : List Char) : List Char :=
  match cs with
  | '/' :: '/' :: rest => rest.takeWhile (fun c => c ≠ '/' && c ≠ '?' && c ≠ '#')
  | _ => []

/-- Scheme component of `urlparse(url)`. -/
def urlScheme (url : String) : String :=
  String.mk (splitScheme url.toList).1

/-- Netloc component of `urlparse(url)`. -/
def urlNetloc (url : String) : String :=
  String.mk (splitNetloc (splitScheme url.toList).2)

/-- Base URL as built in `extract_page_info`: `scheme://netloc` of the page URL. -/
def baseUrlOf (url : String) : String :=
  urlScheme url ++ "://" ++ urlNetloc url

/-- Model of one `meta` element: its `name` attribute and its `content` attribute,
each possibly absent. -/
structure MetaTag where
  name : Option String
  content : Option String
deriving DecidableEq, Repr

/-- Model of the BeautifulSoup parse of an HTML body, restricted to what
`extract_page_info` reads: the text of the first `title` element (`none` when no
title element exists; a bs4 `Tag` object is truthy even when empty), the `meta`
elements in document order, and the `href` values of anchor elements that carry an
`href` attribute, in document order (`find_all` with `href=True`). -/
structure Soup where
  title : Option String
  metas : List MetaTag
  anchors : List String
deriving DecidableEq, Repr

/-- Result record produced by `extract_page_info` for one URL. `title` and
`description` are `none` exactly when the code stores Python `None` (fetch
failure); on the parsed path they are `some` of a string, possibly a sentinel. -/
structure PageResult where
  url : String
  title : Option String
  description : Option String
  links : List String
deriving DecidableEq, Repr

/-- Outcome of one HTTP GET: either a response with a status and a body, or an
exception (connection error, DNS failure, timeout). -/
inductive FetchOutcome where
  | success (status : Nat) (body : String)
  | failure
deriving DecidableEq, Repr

/-- Model of `fetch_url`: the body on status 200, Python `None` (here `none`) on any
other status and on any exception. -/
def fetch_url (net : String → FetchOutcome) (url : String) : Option String :=
  match net url with
  | .success status body => if status = 200 then some body else none
  | .failure => none

/-- Python truthiness of the fetched value: `None` and the empty string are falsy,
so `if not html:` takes the failure branch on both. -/
def pyTruthyHtml : Option String → Bool
  | none => false
  | some s => !(s = "")

/-- Python truthiness of the `task_id` argument: `None` is falsy and so is the
integer `0` (rich task identifiers are integers, and `add_task` numbers them from
`0`). -/
def pyTruthyTaskId : Option Int → Bool
  | none => false
  | some n => !(n = 0)

/-- The link-collection loop of `extract_page_info`: for each href in document
order, prepend the base URL when it starts with `/`, then append it to the list
when it starts with `http://` or `https://`. -/
def linksLoop (base : String) : List String → List String
  | [] => []
  | href :: rest =>
    let resolved := if pyStartsWith href "/" then base ++ href else href
    if pyStartsWith resolved "http://" || pyStartsWith resolved "https://" then
      resolved :: linksLoop base rest
    else
      linksLoop base rest

/-- Title computed on the parsed path: `soup.title.text.strip() if soup.title else
"No title"` (a bs4 tag object is truthy even when empty, so only absence of the
element selects the sentinel). -/
def titleOf (soup : Soup) : String :=
  match soup.title with
  | some t => pyStrip t
  | none => "No title"

/-- Description computed on the parsed path: the first `meta` element whose `name`
attribute equals `description`; when found, its `content` attribute defaulted to
the empty string and stripped, otherwise the sentinel. -/
def descriptionOf (soup : Soup) : String :=
  match soup.metas.find? (fun mt => mt.name = some "description") with
  | some mt => pyStrip (mt.content.getD "")
  | none => "No description"

/-- Record returned by `extract_page_info` on the parsed path: the URL, the title,
the description, and the collected links truncated to the first 5. -/
def parsedResult (url : String) (soup : Soup) : PageResult :=
  ⟨url, some (titleOf soup), some (descriptionOf soup),
    (linksLoop (baseUrlOf url) soup.anchors).take 5⟩

/-- Record returned by `extract_page_info` when `if not html:` holds: the URL with
Python `None` title and description and no links. -/
def failedResult (url : String) : PageResult :=
  ⟨url, none, none, []⟩

/-- Model of `extract_page_info`. Inputs: the parser (BeautifulSoup), the network,
the URL, whether a progress object was supplied, and the task identifier. Output:
the result record together with the number of advance-by-one progress updates the
call performed (the code guards each update with `if progress and task_id:`). -/
def extract_page_info (parse : String → Soup) (net : String → FetchOutcome)
    (url : String) (progress : Bool) (task_id : Option Int) : PageResult × Nat :=
  let html := fetch_url net url
  let tick : Nat := if progress && pyTruthyTaskId task_id then 1 else 0
  if pyTruthyHtml html then
    (parsedResult url (parse (html.getD "")), tick)
  else
    (failedResult url, tick)

/-- The per-URL computation exactly as `process_urls` invokes it: a progress object
is supplied, and the task identifier is the one `Progress.add_task` returns for the
first task of a fresh `Progress`, namely `0`. -/
def scrapeOne (parse : String → Soup) (net : String → FetchOutcome) (url : String) :
    PageResult :=
  (extract_page_info parse net url true (some 0)).1

/-- Model of `asyncio.gather`: each task owns the output slot of its submission
index; the scheduler completes tasks in an arbitrary order, each completion writing
the result of task `i` into slot `i`; the gathered list is the slot list. -/
def runGather (g : Nat → PageResult) (n : Nat) (order : List Nat) :
    List (Option PageResult) :=
  order.foldl (fun slots i => slots.set i (some (g i))) (List.replicate n none)

/-- Model of `process_urls`: one `extract_page_info` task per URL, gathered under an
arbitrary completion order. -/
def process_urls (parse : String → Soup) (net : String → FetchOutcome)
    (urls : List String) (order : List Nat) : List (Option PageResult) :=
  runGather (fun i => scrapeOne parse net (urls.getD i "")) urls.length order

/-- State of the connection-limited fetch pool: URLs not yet started, GET requests
currently in flight, and finished requests. -/
structure ConnState where
  pending : Nat
  inflight : Nat
  finished : Nat
deriving DecidableEq, Repr

/-- Transitions of the pool under the limiter `process_urls` installs, namely the
shared `aiohttp.TCPConnector(limit=max_concurrent)` of the session: a fetch may
start only while strictly fewer than `C` requests are in flight (otherwise it
waits for a slot), and a fetch in flight may finish at any time. -/
inductive ConnStep (C : Nat) : ConnState → ConnState → Prop
  | start (s : ConnState) : 0 < s.pending → s.inflight < C →
      ConnStep C s ⟨s.pending - 1, s.inflight + 1, s.finished⟩
  | finish (s : ConnState) : 0 < s.inflight →
      ConnStep C s ⟨s.pending, s.inflight - 1, s.finished + 1⟩

/-- Reachability under `ConnStep`: reflexive-transitive closure of single steps. -/
inductive ConnReach (C : Nat) : ConnState → ConnState → Prop
  | refl (s : ConnState) : ConnReach C s s
  | tail {s t u : ConnState} : ConnReach C s t → ConnStep C t u → ConnReach C s u

/-- Specification-side link computation, following the spec wording: take the
hrefs in document order, resolve every href that starts with `/` against the
scheme and host of the page, keep only those that then start with `http://` or
`https://`, and truncate to the first 5 entries. -/
def specLinks (pageUrl : String) (hrefs : List String) : List String :=
  ((hrefs.map (fun h => if pyStartsWith h "/" then baseUrlOf pageUrl ++ h else h)).filter
    (fun h => pyStartsWith h "http://" || pyStartsWith h "https://")).take 5

/-- The link-collection loop is the map of the resolution step followed by the
filter on absolute http or https URLs. -/
theorem linksLoop_eq_filter_map (base : String) (hrefs : List String) :
    linksLoop base hrefs =
      (hrefs.map (fun h => if pyStartsWith h "/" then base ++ h else h)).filter
        (fun h => pyStartsWith h "http://" || pyStartsWith h "https://") := by
  induction hrefs with
  | nil => rfl
  | cons a tl ih =>
    simp only [linksLoop, List.map_cons, List.filter_cons]
    rw [ih]

/-- On a fetched nonempty body, `extract_page_info` returns the parsed-path record
together with its progress tick. -/
theorem extract_page_info_success (parse : String → Soup) (net : String → FetchOutcome)
    (url : String) (progress : Bool) (task_id : Option Int) (body : String)
    (hb : fetch_url net url = some body) (hne : body ≠ "") :
    extract_page_info parse net url progress task_id =
      (parsedResult url (parse body),
        if progress && pyTruthyTaskId task_id then 1 else 0) := by
  unfold extract_page_info
  rw [hb]
  simp [pyTruthyHtml, hne]

/-- When `fetch_url` returns Python `None`, `extract_page_info` returns the failed
record together with its progress tick. -/
theorem extract_page_info_failure (parse : String → Soup) (net : String → FetchOutcome)
    (url : String) (progress : Bool) (task_id : Option Int)
    (hb : fetch_url net url = none) :
    extract_page_info parse net url progress task_id =
      (failedResult url, if progress && pyTruthyTaskId task_id then 1 else 0) := by
  unfold extract_page_info
  rw [hb]
  simp [pyTruthyHtml]

/-- Writing task results into slots keeps the slot-list length. -/
theorem foldlSet_length (g : Nat → PageResult) (order : List Nat)
    (init : List (Option PageResult)) :
    (order.foldl (fun slots i => slots.set i (some (g i))) init).length = init.length := by
  induction order generalizing init with
  | nil => rfl
  | cons i rest ih =>
    rw [List.foldl_cons, ih, List.length_set]

/-- Slot `j` of the write sequence: it holds the result of task `j` as soon as `j`
was completed, and the initial content otherwise. -/
theorem foldlSet_getElem? (g : Nat → PageResult) (order : List Nat)
    (init : List (Option PageResult)) (j : Nat) (hj : j < init.length) :
    (order.foldl (fun slots i => slots.set i (some (g i))) init)[j]? =
      if j ∈ order then some (some (g j)) else init[j]? := by
  induction order generalizing init with
  | nil => simp
  | cons i rest ih =>
    rw [List.foldl_cons, ih (init.set i (some (g i))) (by rw [List.length_set]; exact hj)]
    by_cases hjr : j ∈ rest
    · simp [hjr]
    · by_cases hij : i = j
      · subst hij
        simp [hjr, List.getElem?_set_self, hj]
      · have hnotin : j ∉ i :: rest := by
          intro hmem
          rcases List.mem_cons.mp hmem with hh | hh
          · exact hij hh.symm
          · exact hjr hh
        rw [if_neg hjr, if_neg hnotin, List.getElem?_set_ne hij]

/-- When the completion order is a permutation of the task indices, the gathered
list is the map of the task results in index order. -/
theorem runGather_eq_map (g : Nat → PageResult) (n : Nat) (order : List Nat)
    (h : order.Perm (List.range n)) :
    runGather g n order = (List.range n).map (fun i => some (g i)) := by
  apply List.ext_getElem?
  intro j
  by_cases hj : j < n
  · rw [runGather, foldlSet_getElem? g order (List.replicate n none) j
      (by rw [List.length_replicate]; exact hj)]
    have hmem : j ∈ order := h.mem_iff.mpr (List.mem_range.mpr hj)
    rw [if_pos hmem, List.getElem?_map, List.getElem?_range hj]
    rfl
  · have h1 : (runGather g n order).length = n := by
      rw [runGather, foldlSet_length, List.length_replicate]
    have h2 : ((List.range n).map (fun i => some (g i))).length = n := by
      rw [List.length_map, List.length_range]
    rw [List.getElem?_eq_none (by omega), List.getElem?_eq_none (by omega)]

/-- Indexing the input list through `List.range` is the same as mapping over it. -/
theorem map_range_getD (f : String → Option PageResult) (urls : List String) :
    (List.range urls.length).map (fun i => f (urls.getD i "")) = urls.map f := by
  induction urls with
  | nil => rfl
  | cons u tl ih =>
    have hfun : ((fun i => f ((u :: tl).getD i "")) ∘ Nat.succ) =
        (fun i => f (tl.getD i "")) := by
      funext i
      simp [Function.comp, List.getD_cons_succ]
    rw [List.length_cons, List.range_succ_eq_map, List.map_cons, List.map_map,
      List.getD_cons_zero, hfun, ih, List.map_cons]

/-- For any completion order that is a permutation of the task indices, the batch
result is the per-URL computation mapped over the input list. -/
theorem process_urls_eq_map (parse : String → Soup) (net : String → FetchOutcome)
    (urls : List String) (order : List Nat)
    (h : order.Perm (List.range urls.length)) :
    process_urls parse net urls order =
      urls.map (fun u => some (scrapeOne parse net u)) := by
  rw [process_urls, runGather_eq_map _ _ _ h]
  exact map_range_getD (fun u => some (scrapeOne parse net u)) urls

/-- Fixture: a parsed page with a padded title, a description meta element, and
the four anchor hrefs of the spec example. -/
def soupEx : Soup :=
  ⟨some " Example Domain ",
    [⟨some "description", some " An example. "⟩],
    ["/about", "https://x.com/page", "mailto:a@b.com", "#frag"]⟩

/-- Fixture parser returning `soupEx` for every body. -/
def parseEx : String → Soup := fun _ => soupEx

/-- Fixture network answering every URL with status 200 and a nonempty body. -/
def netEx : String → FetchOutcome := fun _ => .success 200 "<html>page</html>"

/-- Fixture network raising an exception for every URL. -/
def netFail : String → FetchOutcome := fun _ => .failure

/-- Fixture network answering status 200 with an empty body. -/
def netEmpty : String → FetchOutcome := fun _ => .success 200 ""

/-- Fixture network failing on one URL and behaving like `netEx` elsewhere. -/
def netOneFail : String → FetchOutcome :=
  fun u => if u = "https://bad.com" then .failure else netEx u

/-- Fixture: a parsed page with no title element, no meta elements and no
anchors. -/
def soupBare : Soup := ⟨none, [], []⟩

/-- Fixture parser returning `soupBare` for every body. -/
def parseBare : String → Soup := fun _ => soupBare

/-- Fixture: a parsed page whose only description meta element has no content
attribute. -/
def soupNoContent : Soup := ⟨some "T", [⟨some "description", none⟩], []⟩

/-- Fixture parser returning `soupNoContent` for every body. -/
def parseNoContent : String → Soup := fun _ => soupNoContent

/-- C1: for every input URL list and every completion order of the concurrent
per-URL tasks, `process_urls` produces exactly one result slot per input URL, the
slot of index i holding the result computed from input URL i, so the output
equals the per-URL computation mapped over the input list and has the input
length. -/
theorem process_urls_cardinality_and_order (parse : String → Soup)
    (net : String → FetchOutcome) (urls : List String) (order : List Nat)
    (h : order.Perm (List.range urls.length)) :
    process_urls parse net urls order =
      urls.map (fun u => some (scrapeOne parse net u)) ∧
    (process_urls parse net urls order).length = urls.length := by
  refine ⟨process_urls_eq_map parse net urls order h, ?_⟩
  rw [process_urls_eq_map parse net urls order h, List.length_map]

/-- Witness for C1 at a two-URL batch completed in reverse order. -/
theorem process_urls_cardinality_and_order_witness :
    ([1, 0] : List Nat).Perm
        (List.range (["https://site.com", "https://a.org"] : List String).length) ∧
      process_urls parseEx netEx ["https://site.com", "https://a.org"] [1, 0] =
        [some ⟨"https://site.com", some "Example Domain", some "An example.",
            ["https://site.com/about", "https://x.com/page"]⟩,
         some ⟨"https://a.org", some "Example Domain", some "An example.",
            ["https://a.org/about", "https://x.com/page"]⟩] := by
  refine ⟨by decide, ?_⟩
  have h := process_urls_cardinality_and_order parseEx netEx
    ["https://site.com", "https://a.org"] [1, 0] (by decide)
  exact h.1.trans (by decide)

/-- C2: on every fetched nonempty body, the links of the extracted record are
exactly the computation the spec words describe: hrefs in document order,
leading-slash hrefs resolved against scheme and host of the page, only hrefs that
then start with http or https kept, truncated to the first 5. -/
theorem extracted_links_follow_spec (parse : String → Soup) (net : String → FetchOutcome)
    (url : String) (progress : Bool) (task_id : Option Int) (body : String)
    (hb : fetch_url net url = some body) (hne : body ≠ "") :
    (extract_page_info parse net url progress task_id).1.links =
      specLinks url (parse body).anchors := by
  rw [extract_page_info_success parse net url progress task_id body hb hne]
  simp only [parsedResult, specLinks, linksLoop_eq_filter_map, baseUrlOf]

/-- Witness for C2: the spec example page at site.com with hrefs slash-about,
absolute x.com, mailto and fragment yields exactly the two expected links in
order. -/
theorem extracted_links_follow_spec_witness :
    fetch_url netEx "https://site.com" = some "<html>page</html>" ∧
      (extract_page_info parseEx netEx "https://site.com" true (some 1)).1.links =
        ["https://site.com/about", "https://x.com/page"] := by
  refine ⟨by decide, ?_⟩
  have h := extracted_links_follow_spec parseEx netEx "https://site.com" true (some 1)
    "<html>page</html>" (by decide) (by decide)
  exact h.trans (by decide)

/-- C3: when the fetch fails with an exception (connection error, timeout) or any
non-200 status, the record still exists and carries the requested URL, Python
None title and description, and an empty link list; the per-URL operation is a
total function, so no exception escapes it. -/
theorem failed_fetch_result_shape (parse : String → Soup) (net : String → FetchOutcome)
    (url : String) (progress : Bool) (task_id : Option Int)
    (h : net url = .failure ∨
      ∃ status body, net url = .success status body ∧ status ≠ 200) :
    (extract_page_info parse net url progress task_id).1 = ⟨url, none, none, []⟩ := by
  have hf : fetch_url net url = none := by
    rcases h with hh | ⟨status, body, hh, hs⟩
    · simp [fetch_url, hh]
    · simp [fetch_url, hh, hs]
  rw [extract_page_info_failure parse net url progress task_id hf]
  rfl

/-- Witness for C3 at a connection failure. -/
theorem failed_fetch_result_shape_witness :
    netFail "https://a.org" = FetchOutcome.failure ∧
      (extract_page_info parseEx netFail "https://a.org" true (some 1)).1 =
        ⟨"https://a.org", none, none, []⟩ :=
  ⟨rfl,
    failed_fetch_result_shape parseEx netFail "https://a.org" true (some 1) (Or.inl rfl)⟩

/-- C4: on every fetched nonempty body, a missing title element gives the
sentinel string for the title and a missing description meta element gives the
sentinel string for the description; otherwise the title is the stripped text of
the first title element and the description is the stripped content attribute of
the first meta element whose name attribute equals description. -/
theorem title_description_sentinels (parse : String → Soup) (net : String → FetchOutcome)
    (url : String) (progress : Bool) (task_id : Option Int) (body : String)
    (hb : fetch_url net url = some body) (hne : body ≠ "") :
    ((parse body).title = none →
      (extract_page_info parse net url progress task_id).1.title = some "No title") ∧
    (∀ t, (parse body).title = some t →
      (extract_page_info parse net url progress task_id).1.title = some (pyStrip t)) ∧
    ((parse body).metas.find? (fun mt => mt.name = some "description") = none →
      (extract_page_info parse net url progress task_id).1.description =
        some "No description") ∧
    (∀ mt c, (parse body).metas.find? (fun x => x.name = some "description") = some mt →
      mt.content = some c →
      (extract_page_info parse net url progress task_id).1.description =
        some (pyStrip c)) := by
  rw [extract_page_info_success parse net url progress task_id body hb hne]
  refine ⟨fun ht => ?_, fun t ht => ?_, fun hd => ?_, fun mt c hd hc => ?_⟩
  · simp [parsedResult, titleOf, ht]
  · simp [parsedResult, titleOf, ht]
  · simp [parsedResult, descriptionOf, hd]
  · simp [parsedResult, descriptionOf, hd, hc]

/-- Witness for C4 at a parsed page with neither a title element nor a
description meta element. -/
theorem title_description_sentinels_witness :
    (extract_page_info parseBare netEx "https://a.org" true (some 1)).1.title =
        some "No title" ∧
      (extract_page_info parseBare netEx "https://a.org" true (some 1)).1.description =
        some "No description" := by
  have h := title_description_sentinels parseBare netEx "https://a.org" true (some 1)
    "<html>page</html>" (by decide) (by decide)
  exact ⟨h.1 rfl, h.2.2.1 rfl⟩

/-- C5: failure isolation. If a batch network netF fails on u1 but agrees with
the unfailed network net on u2, where u2 succeeds, then the record computed for
u2 under netF is identical to its record under net, and the batch under netF
still completes with one filled slot per input URL in input order. -/
theorem failure_isolation (parse : String → Soup) (net netF : String → FetchOutcome)
    (urls : List String) (order : List Nat) (u1 u2 : String)
    (_h1 : fetch_url netF u1 = none)
    (hagree : netF u2 = net u2)
    (_h2 : ∃ body, fetch_url net u2 = some body ∧ body ≠ "")
    (horder : order.Perm (List.range urls.length)) :
    scrapeOne parse netF u2 = scrapeOne parse net u2 ∧
      process_urls parse netF urls order =
        urls.map (fun u => some (scrapeOne parse netF u)) := by
  refine ⟨?_, process_urls_eq_map parse netF urls order horder⟩
  have hsame : fetch_url netF u2 = fetch_url net u2 := by
    simp [fetch_url, hagree]
  simp only [scrapeOne, extract_page_info, hsame]

/-- Witness for C5: bad.com fails while site.com succeeds; the record of site.com
is unchanged and the two-URL batch completes in full. -/
theorem failure_isolation_witness :
    scrapeOne parseEx netOneFail "https://site.com" =
        scrapeOne parseEx netEx "https://site.com" ∧
      process_urls parseEx netOneFail ["https://bad.com", "https://site.com"] [1, 0] =
        [some ⟨"https://bad.com", none, none, []⟩,
         some ⟨"https://site.com", some "Example Domain", some "An example.",
            ["https://site.com/about", "https://x.com/page"]⟩] := by
  have h := failure_isolation parseEx netEx netOneFail
    ["https://bad.com", "https://site.com"] [1, 0] "https://bad.com" "https://site.com"
    (by decide) (by decide) ⟨"<html>page</html>", by decide, by decide⟩ (by decide)
  exact ⟨h.1, h.2.trans (by decide)⟩

/-- C6: from the initial state of a batch of n URLs, every state reachable under
the connection-limited step relation keeps at most C fetches in flight: the
number of simultaneous outstanding requests never exceeds the cap. -/
theorem inflight_never_exceeds_limit (C n : Nat) (s : ConnState)
    (h : ConnReach C ⟨n, 0, 0⟩ s) : s.inflight ≤ C := by
  induction h with
  | refl => exact Nat.zero_le C
  | tail hr hstep ih =>
    cases hstep with
    | start hp hc => exact hc
    | finish hi => exact le_trans (Nat.sub_le _ _) ih

/-- Witness for C6: with limit 2 and three URLs, the state reached after starting
two fetches respects the cap. -/
theorem inflight_never_exceeds_limit_witness :
    (⟨1, 2, 0⟩ : ConnState).inflight ≤ 2 :=
  inflight_never_exceeds_limit 2 3 ⟨1, 2, 0⟩
    (ConnReach.tail
      (ConnReach.tail (ConnReach.refl ⟨3, 0, 0⟩)
        (ConnStep.start ⟨3, 0, 0⟩ (by decide) (by decide)))
      (ConnStep.start ⟨2, 1, 0⟩ (by decide) (by decide)))

/-- C7 (refuted, code bug): the progress update in `extract_page_info` is guarded
by `if progress and task_id:`, and the integer 0 is falsy in Python; the task
identifier that rich `Progress.add_task` assigns to the first task of a fresh
`Progress` — the one `process_urls` creates and passes — is exactly 0, so no
advance signal is ever emitted although a progress reporter is supplied. With a
nonzero identifier exactly one signal per URL is emitted, on the success path and
on the failure path alike, and omitting the reporter leaves the computed record
unchanged. -/
theorem progress_signal_dropped_for_task_zero :
    (extract_page_info parseEx netEx "https://site.com" true (some 0)).2 = 0 ∧
    (extract_page_info parseEx netFail "https://site.com" true (some 0)).2 = 0 ∧
    (extract_page_info parseEx netEx "https://site.com" true (some 1)).2 = 1 ∧
    (extract_page_info parseEx netFail "https://site.com" true (some 1)).2 = 1 ∧
    (extract_page_info parseEx netEx "https://site.com" false none).1 =
      (extract_page_info parseEx netEx "https://site.com" true (some 1)).1 := by
  decide

/-- C8: determinism. The batch result is a function of the parser, the responses
and the URL list alone: any two completion orders of the same batch produce
identical result lists, so running the same batch twice against the same
deterministic responses yields the same output. -/
theorem process_urls_deterministic (parse : String → Soup) (net : String → FetchOutcome)
    (urls : List String) (order1 order2 : List Nat)
    (h1 : order1.Perm (List.range urls.length))
    (h2 : order2.Perm (List.range urls.length)) :
    process_urls parse net urls order1 = process_urls parse net urls order2 :=
  (process_urls_eq_map parse net urls order1 h1).trans
    (process_urls_eq_map parse net urls order2 h2).symm

/-- Witness for C8 at a two-URL batch under the two possible completion orders. -/
theorem process_urls_deterministic_witness :
    process_urls parseEx netEx ["https://site.com", "https://a.org"] [0, 1] =
      process_urls parseEx netEx ["https://site.com", "https://a.org"] [1, 0] :=
  process_urls_deterministic parseEx netEx ["https://site.com", "https://a.org"]
    [0, 1] [1, 0] (by decide) (by decide)

/-- C9: a description meta element that lacks a content attribute yields an empty
description string, not the sentinel: the sentinel is chosen only when no
description meta element exists at all. -/
theorem meta_without_content_yields_empty (parse : String → Soup)
    (net : String → FetchOutcome) (url : String) (progress : Bool)
    (task_id : Option Int) (body : String) (mt : MetaTag)
    (hb : fetch_url net url = some body) (hne : body ≠ "")
    (hfind : (parse body).metas.find? (fun x => x.name = some "description") = some mt)
    (hc : mt.content = none) :
    (extract_page_info parse net url progress task_id).1.description = some "" ∧
      (extract_page_info parse net url progress task_id).1.description ≠
        some "No description" := by
  have hd : (extract_page_info parse net url progress task_id).1.description = some "" := by
    rw [extract_page_info_success parse net url progress task_id body hb hne]
    simp [parsedResult, descriptionOf, hfind, hc, pyStrip]
  refine ⟨hd, ?_⟩
  rw [hd]
  decide

/-- Witness for C9: a page whose only description meta element has no content
attribute produces the empty description. -/
theorem meta_without_content_yields_empty_witness :
    (extract_page_info parseNoContent netEx "https://a.org" true (some 1)).1.description =
        some "" ∧
      (extract_page_info parseNoContent netEx "https://a.org" true
          (some 1)).1.description ≠ some "No description" :=
  meta_without_content_yields_empty parseNoContent netEx "https://a.org" true (some 1)
    "<html>page</html>" ⟨some "description", none⟩ (by decide) (by decide) (by decide) rfl

/-- C10: a 200 response with an empty body is treated exactly like a fetch
failure, because `if not html:` also holds for the empty string: the record has
the failed shape with None fields and no links, not the parsed shape with
sentinel strings. -/
theorem empty_body_treated_as_failure (parse : String → Soup)
    (net : String → FetchOutcome) (url : String) (progress : Bool)
    (task_id : Option Int) (h : net url = .success 200 "") :
    (extract_page_info parse net url progress task_id).1 = ⟨url, none, none, []⟩ := by
  have hf : fetch_url net url = some "" := by simp [fetch_url, h]
  have hfalse : pyTruthyHtml (some "") = false := by decide
  simp [extract_page_info, hf, hfalse, failedResult]

/-- Witness for C10 at a network answering 200 with an empty body. -/
theorem empty_body_treated_as_failure_witness :
    netEmpty "https://a.org" = FetchOutcome.success 200 "" ∧
      (extract_page_info parseEx netEmpty "https://a.org" true (some 1)).1 =
        ⟨"https://a.org", none, none, []⟩ :=
  ⟨rfl,
    empty_body_treated_as_failure parseEx netEmpty "https://a.org" true (some 1) rfl⟩

end AsyncWebScrapper
